import Mathlib

/-!
# Verification of the assembly-downloader core (src/main.rs)

Shallow embedding of the NCBI assembly downloader. Rust strings are modelled
as `List Char`; the HTTP client is an explicit environment `Env` giving, for
each URL and attempt index, either a transport error or a response (status
plus a fallible body read), together with a per-path write-success oracle.
Every network-touching function also returns the list of GET URLs it issued,
in order, and the list of `(path, contents)` file writes it performed, so
that "no request is made" and "files remain on disk" are statable.

Modelling notes, each tied to the source:
* `reqwest::StatusCode::is_success()` is 200..=299; the status is modelled as
  a `Nat` and its `Display` as its decimal digits (the canonical reason
  phrase is external library data and is omitted).
* transport-level and body-read errors of the directory listing propagate
  their own message (`?` on `send()` / `text()`); the artifact download wraps
  its body-read and file-write failures in fixed `context` messages, which is
  exactly what `anyhow`'s `Display` shows.
* the regex `<a href="([^"]*)"` is modelled by a left-to-right scan that, at
  the first position where the literal tag `<a href="` matches, captures up
  to the next quote and resumes after it: the leftmost, non-overlapping
  semantics of `captures_iter`.
* `tokio` concurrency inside one window of `join_all` is modelled by
  quantifying over every permutation of the window's request sequence
  (a superset of the real interleavings); windows are sequential, as the
  `await` on `join_all` is a barrier.
-/

/-- Rust `String` / `&str`, modelled as its character sequence. -/
abbrev Str : Type := List Char

/-- Whitespace test used by Rust `str::trim` (ASCII fragment). -/
def isWs (c : Char) : Bool := c = ' ' || c = '\t' || c = '\n' || c = '\r'

/-- Rust `str::trim`: drop whitespace at both ends. -/
def trimStr (s : Str) : Str :=
  ((s.dropWhile isWs).reverse.dropWhile isWs).reverse

/-- Rust `str::split_once(c)`: split at the first occurrence of `c`. -/
def splitOnceChar (c : Char) : Str → Option (Str × Str)
  | [] => none
  | x :: xs =>
    if x = c then some ([], xs)
    else (splitOnceChar c xs).map (fun p => (x :: p.1, p.2))

/-- Rust `str::split(c)`: split at every occurrence of `c`. -/
def splitAllChar (c : Char) : Str → List Str
  | [] => [[]]
  | x :: xs =>
    if x = c then [] :: splitAllChar c xs
    else
      match splitAllChar c xs with
      | [] => [[x]]
      | h :: t => (x :: h) :: t

/-- Rust `slice::chunks(3)`: groups of three, the last possibly shorter. -/
def chunk3 {α : Type} : List α → List (List α)
  | [] => []
  | [a] => [[a]]
  | [a, b] => [[a, b]]
  | a :: b :: c :: rest => [a, b, c] :: chunk3 rest

/-- Rust `Vec::join(sep)` for one-character separators. -/
def joinSep (c : Char) : List Str → Str
  | [] => []
  | [x] => x
  | x :: xs => x ++ c :: joinSep c xs

/-- First occurrence of `sep` in `s`: `some (before, after)` with
`s = before ++ sep ++ after` at the leftmost match. -/
def findOcc (sep : Str) : Str → Option (Str × Str)
  | [] => if sep.isEmpty then some ([], []) else none
  | x :: xs =>
    if sep.isPrefixOf (x :: xs) then some ([], (x :: xs).drop sep.length)
    else (findOcc sep xs).map (fun p => (x :: p.1, p.2))

/-- Fuel-driven worker for `splitOnStr`. -/
def splitOnAux (sep : Str) : Nat → Str → List Str
  | 0, s => [s]
  | fuel + 1, s =>
    match findOcc sep s with
    | none => [s]
    | some (pre, post) => pre :: splitOnAux sep fuel post

/-- Rust `str::split(pattern)` for a string pattern (nonempty in this code). -/
def splitOnStr (sep s : Str) : List Str := splitOnAux sep (s.length + 1) s

/-- Decimal digits of a `Nat`, as Rust `u32: Display` renders it. -/
def digitChr (d : Nat) : Char := Char.ofNat (48 + d)

/-- Fuel-driven worker for `natToChars`. -/
def natToCharsAux : Nat → Nat → List Char
  | 0, _ => []
  | fuel + 1, n =>
    if n < 10 then [digitChr n]
    else natToCharsAux fuel (n / 10) ++ [digitChr (n % 10)]

/-- Decimal rendering of a `Nat`. -/
def natToChars (n : Nat) : Str := natToCharsAux (n + 1) n

/-- `reqwest::StatusCode::is_success()`: 2xx. -/
def statusIsSuccess (s : Nat) : Bool := 200 ≤ s && s ≤ 299

deriving instance DecidableEq for Except

/-- An HTTP response: status code and the result of reading its body
(`text()` / `bytes()`), whose error side carries the library message. -/
structure Resp where
  status : Nat
  body : Except Str Str
deriving DecidableEq

/-- Result of one `client.get(url).send().await`. -/
inductive SendResult : Type
  | transportErr (msg : Str)
  | ok (resp : Resp)
deriving DecidableEq

/-- The effect environment: per-URL, per-attempt response oracle and a
per-path write-success oracle. -/
structure Env where
  send : Str → Nat → SendResult
  writeOk : Str → Bool

/-- The `anyhow::Error` values this program can produce, by construction
site, with `message` matching the corresponding format string. -/
inductive DlError : Type
  | invalidAccession
  | transport (msg : Str)
  | dirUnavailable (status : Nat)
  | textRead (msg : Str)
  | noMatch (accession : Str)
  | bytesRead
  | fileWrite
  | retriesExhausted (retryCount : Nat) (url : Str)
deriving DecidableEq

/-- `e.to_string()` for each error (for `context`-wrapped errors `anyhow`
displays only the context message). -/
def DlError.message : DlError → Str
  | .invalidAccession => "Invalid accession format".data
  | .transport msg => msg
  | .dirUnavailable s =>
    "Failed to open genome directory: HTTP ".data ++ natToChars s
  | .textRead msg => msg
  | .noMatch accession =>
    "No matching genome found for accession ".data ++ accession
  | .bytesRead => "Failed to read bytes from response".data
  | .fileWrite => "Failed to write data to file".data
  | .retriesExhausted n url =>
    "Failed to download file after ".data ++ natToChars n
      ++ " retries: ".data ++ url

/-- The literal regex tag up to the capture group. -/
def hrefTag : Str := "<a href=\"".data

/-- Fuel-driven worker for `extractHrefs`. -/
def extractHrefsAux : Nat → Str → List Str
  | 0, _ => []
  | _ + 1, [] => []
  | fuel + 1, x :: xs =>
    if hrefTag.isPrefixOf (x :: xs) then
      match splitOnceChar '"' ((x :: xs).drop hrefTag.length) with
      | some (cap, rest) => cap :: extractHrefsAux fuel rest
      | none => []
    else extractHrefsAux fuel xs

/-- All capture groups of `captures_iter` for `<a href="([^"]*)"` over the
page, leftmost and non-overlapping. -/
def extractHrefs (s : Str) : List Str := extractHrefsAux s.length s

/-- Strip one trailing `/` when present (lines 43-47 of main.rs). -/
def cleanHref (name : Str) : Str :=
  if name.getLast? = some '/' then name.dropLast else name

/-- The match test of lines 48-53: starts with `db` and the second
`'_'`-delimited field starts with `number`. -/
def matchesEntry (db number name : Str) : Bool :=
  db.isPrefixOf name &&
    (match (splitAllChar '_' name).get? 1 with
     | some field => number.isPrefixOf field
     | none => false)

/-- The `for cap in link_regex.captures_iter` loop with early return:
first href whose cleaned name passes `matchesEntry`. -/
def findMatchLoop (db number : Str) : List Str → Option Str
  | [] => none
  | h :: t =>
    let clean := cleanHref h
    if matchesEntry db number clean then some clean
    else findMatchLoop db number t

/-- `https://ftp.ncbi.nlm.nih.gov/genomes/all/` — the fixed URL prefix of
the `format!` at lines 26-29. -/
def archiveRoot : Str := "https://ftp.ncbi.nlm.nih.gov/genomes/all/".data

/-- The sharded path segment: digits in groups of three joined with `/`
(lines 18-24). -/
def numberPath (number : Str) : Str := joinSep '/' (chunk3 number)

/-- The directory-listing URL for a parsed accession. -/
def mkBaseUrl (db number : Str) : Str :=
  archiveRoot ++ db ++ '/' :: numberPath number

/-- Line 17: `acc.split_once('.').unwrap_or((acc, "1"))`, keeping only the
number part (the default version "1" is unused downstream). -/
def numberOf (acc : Str) : Str :=
  match splitOnceChar '.' acc with
  | some p => p.1
  | none => acc

/-- `fetch_full_filename` (lines 12-62): resolve an accession to
`(base_url ++ "/" ++ name, name)`. Also returns the GET URLs issued. -/
def fetchFullFilename (env : Env) (accession : Str) :
    Except DlError (Str × Str) × List Str :=
  match splitOnceChar '_' (trimStr accession) with
  | none => (.error .invalidAccession, [])
  | some (db, acc) =>
    let number := numberOf acc
    let baseUrl := mkBaseUrl db number
    match env.send baseUrl 0 with
    | .transportErr m => (.error (.transport m), [baseUrl])
    | .ok resp =>
      if statusIsSuccess resp.status then
        match resp.body with
        | .error m => (.error (.textRead m), [baseUrl])
        | .ok text =>
          match findMatchLoop db number (extractHrefs text) with
          | some clean => (.ok (baseUrl ++ '/' :: clean, clean), [baseUrl])
          | none => (.error (.noMatch accession), [baseUrl])
      else (.error (.dirUnavailable resp.status), [baseUrl])

/-- Output of one download or pipeline: result, file writes performed in
order, GET URLs issued in order. -/
structure PipeOut where
  result : Except DlError Unit
  writes : List (Str × Str)
  requests : List Str
deriving DecidableEq

/-- The `while attempts > 0` loop of `download_with_retry` (lines 70-87),
with `idx` counting the attempts already consumed. -/
def downloadGo (env : Env) (url path : Str) (retryCount : Nat) :
    Nat → Nat → PipeOut
  | 0, _ => ⟨.error (.retriesExhausted retryCount url), [], []⟩
  | attempts + 1, idx =>
    match env.send url idx with
    | .ok resp =>
      if statusIsSuccess resp.status then
        match resp.body with
        | .ok data =>
          if env.writeOk path then ⟨.ok (), [(path, data)], [url]⟩
          else ⟨.error .fileWrite, [], [url]⟩
        | .error _ => ⟨.error .bytesRead, [], [url]⟩
      else
        let o := downloadGo env url path retryCount attempts (idx + 1)
        ⟨o.result, o.writes, url :: o.requests⟩
    | .transportErr _ =>
      let o := downloadGo env url path retryCount attempts (idx + 1)
      ⟨o.result, o.writes, url :: o.requests⟩

/-- `download_with_retry` (lines 64-94). -/
def downloadWithRetry (env : Env) (url path : Str) (retryCount : Nat) :
    PipeOut :=
  downloadGo env url path retryCount retryCount 0

/-- The two per-accession artifact suffixes (line 106). -/
def artifactSuffixes : List Str :=
  ["_genomic.fna.gz".data, "_protein.faa.gz".data]

/-- The standalone files (line 107). -/
def standaloneFiles : List Str := ["md5checksums.txt".data]

/-- `Utf8PathBuf::join` for the relative file names this program builds. -/
def pathJoin (loc name : Str) : Str := loc ++ '/' :: name

/-- The `(url, local path)` download targets of one accession, in the order
the two loops of `process_accession` issue them (lines 109-122). -/
def pipelineTargets (baseUrl fullName accession loc : Str) :
    List (Str × Str) :=
  artifactSuffixes.map
    (fun suffix =>
      (baseUrl ++ '/' :: (fullName ++ suffix),
       pathJoin loc (accession ++ suffix)))
  ++ standaloneFiles.map
    (fun f =>
      (baseUrl ++ '/' :: f, pathJoin loc (accession ++ '_' :: f)))

/-- Sequential downloads with the `?`-induced fail-fast of lines 113/121. -/
def downloadTargets (env : Env) (retryCount : Nat) :
    List (Str × Str) → PipeOut
  | [] => ⟨.ok (), [], []⟩
  | (url, path) :: rest =>
    match downloadWithRetry env url path retryCount with
    | ⟨.ok _, w, q⟩ =>
      let o := downloadTargets env retryCount rest
      ⟨o.result, w ++ o.writes, q ++ o.requests⟩
    | ⟨.error e, w, q⟩ => ⟨.error e, w, q⟩

/-- `process_accession` (lines 96-125). -/
def processAccession (env : Env) (accession loc : Str)
    (retry : Option Nat) : PipeOut :=
  let retryCount := retry.getD 3
  match fetchFullFilename env accession with
  | (.error e, reqs) => ⟨.error e, [], reqs⟩
  | (.ok (baseUrl, fullName), reqs) =>
    let o := downloadTargets env retryCount
      (pipelineTargets baseUrl fullName accession loc)
    ⟨o.result, o.writes, reqs ++ o.requests⟩

/-- The URL-recovery of lines 229-231:
`err_message.split("retries: ").get(1).unwrap_or("Unknown URL").trim()`. -/
def markerStr : Str := "retries: ".data

/-- Extract the reported URL from an error message (lines 229-231). -/
def extractFailedUrl (msg : Str) : Str :=
  trimStr (((splitOnStr markerStr msg).get? 1).getD "Unknown URL".data)

/-- Per-window pipeline outcomes, in `join_all` order (= chunk order). -/
def windowResults (env : Env) (loc : Str) (retry : Nat) (w : List Str) :
    List (Str × PipeOut) :=
  w.map (fun a => (a, processAccession env a loc (some retry)))

/-- One result of the inner loop of lines 225-240: a failed pipeline
yields the record `(accession, extracted url)`, a success yields none. -/
def recordOf (p : Str × PipeOut) : Option (Str × Str) :=
  match p.2.result with
  | .ok _ => none
  | .error e => some (p.1, extractFailedUrl e.message)

/-- The failure records one window's result loop writes (lines 225-240). -/
def chunkRecords (rs : List (Str × PipeOut)) : List (Str × Str) :=
  rs.filterMap recordOf

/-- All pipeline outcomes of the run, across the width-3 windows, in
processing order (lines 202-223). -/
def pipelineResults (env : Env) (loc : Str) (retry : Nat)
    (accs : List Str) : List (Str × PipeOut) :=
  ((chunk3 accs).map (windowResults env loc retry)).flatten

/-- The failure report body: one `(accession, url)` row per failed
pipeline, in emission order (lines 225-240). -/
def failureRecords (env : Env) (loc : Str) (retry : Nat)
    (accs : List Str) : List (Str × Str) :=
  ((chunk3 accs).map
    (fun w => chunkRecords (windowResults env loc retry w))).flatten

/-- The trimmed-and-nonblank accession rows of the input CSV
(lines 185-191), before deduplication. -/
def processedInput (rows : List Str) : List Str :=
  (rows.map trimStr).filter (fun s => !s.isEmpty)

/-- `dl` is a possible iteration order of the `HashSet` built from `rows`:
duplicate-free and containing exactly the trimmed nonblank rows. -/
def DedupOf (rows dl : List Str) : Prop :=
  dl.Nodup ∧ ∀ a, a ∈ dl ↔ a ∈ processedInput rows

/-- The GET sequence of one pipeline (requests depend only on `env`). -/
def pipelineRequests (env : Env) (loc : Str) (retry : Nat) (a : Str) :
    List Str :=
  (processAccession env a loc (some retry)).requests

/-- The requests of one window in canonical (chunk) order; the actual
concurrent order is some permutation of this. -/
def windowRequests (env : Env) (loc : Str) (retry : Nat) (w : List Str) :
    List Str :=
  (w.map (pipelineRequests env loc retry)).flatten

/-- `t` is a possible global GET trace of the run: window segments occur
strictly in window order, and within one window the concurrent pipelines
may interleave arbitrarily (modelled as any permutation). -/
def PossibleTrace (env : Env) (loc : Str) (retry : Nat)
    (accs : List Str) (t : List Str) : Prop :=
  ∃ parts : List (List Str),
    parts.length = (chunk3 accs).length ∧
    (∀ (i : Nat) (h1 : i < parts.length)
        (h2 : i < (chunk3 accs).length),
      List.Perm (parts.get ⟨i, h1⟩)
        (windowRequests env loc retry ((chunk3 accs).get ⟨i, h2⟩))) ∧
    t = parts.flatten

/-- The claim's reading of the URL recovery: everything after the (first)
occurrence of the marker. Stated from the claim's words, for comparison
with `extractFailedUrl`. -/
def specUrlAfterMarker (msg : Str) : Option Str :=
  (findOcc markerStr msg).map (fun p => p.2)

/-- A failed attempt in the sense of lines 73-86: transport error, or a
response whose status is not a success. -/
def attemptFails : SendResult → Bool
  | .transportErr _ => true
  | .ok resp => !statusIsSuccess resp.status

/-- The directory-listing page of the spec's worked example. -/
def pageC1 : Str :=
  ("<a href=\"GCF_000001405.40_GRCh38.p14/\">"
    ++ "<a href=\"GCF_000001406.1_Other/\">").data

/-- An environment whose every GET returns 200 with the given page. -/
def envListing (page : Str) : Env :=
  { send := fun _ _ => .ok ⟨200, .ok page⟩, writeOk := fun _ => true }

/-- Environment serving the worked-example listing. -/
def envExample : Env := envListing pageC1

/-- Environment serving an empty 200 listing: resolution finds no match. -/
def envEmptyListing : Env := envListing []

/-- Environment answering every GET with HTTP 404. -/
def env404 : Env :=
  { send := fun _ _ => .ok ⟨404, .ok []⟩, writeOk := fun _ => true }

/-- Environment where every GET fails transport-side. -/
def envAllFail : Env :=
  { send := fun _ _ => .transportErr [], writeOk := fun _ => true }

/-- Environment whose first two attempts on any URL fail transport-side
and whose third returns 200 with body `DATA`. -/
def envTwoFailThenOk : Env :=
  { send := fun _ i =>
      if i < 2 then .transportErr [] else .ok ⟨200, .ok "DATA".data⟩,
    writeOk := fun _ => true }

/-- Environment where the listing and the first artifact succeed but the
protein artifact (and anything later) fails transport-side: exercises the
fail-fast path of the pipeline with one file already written. -/
def envSecondFails : Env :=
  { send := fun url _ =>
      if "_protein.faa.gz".data.isSuffixOf url then .transportErr []
      else if "md5checksums.txt".data.isSuffixOf url then .transportErr []
      else .ok ⟨200, .ok pageC1⟩,
    writeOk := fun _ => true }

/-- An accession containing the marker twice: exhibits the gap between
`extractFailedUrl` and `specUrlAfterMarker`. -/
def accTwoMarkers : Str := "A retries: B retries: C_1".data

/-- An accession containing the marker once, used against claim C10. -/
def accOneMarker : Str := "A retries: B_1".data

/-- Seven distinct accessions, for the three-window claim. -/
def sevenAccs : List Str :=
  ["A_1".data, "B_1".data, "C_1".data, "D_1".data,
   "E_1".data, "F_1".data, "G_1".data]

/-! ## Helper lemmas -/

theorem splitOnceChar_eq_none {c : Char} :
    ∀ {s : Str}, c ∉ s → splitOnceChar c s = none := by
  intro s
  induction s with
  | nil => intro _; rfl
  | cons x xs ih =>
    intro h
    have hx : ¬ x = c := fun e => h (e ▸ List.mem_cons_self x xs)
    have hxs : c ∉ xs := fun hm => h (List.mem_cons_of_mem x hm)
    simp [splitOnceChar, hx, ih hxs]

theorem mem_of_mem_trimStr {a : Char} {s : Str} (h : a ∈ trimStr s) :
    a ∈ s := by
  unfold trimStr at h
  rw [List.mem_reverse] at h
  have h2 := (List.dropWhile_sublist isWs).subset h
  rw [List.mem_reverse] at h2
  exact (List.dropWhile_sublist isWs).subset h2

theorem findMatchLoop_eq_find (db number : Str) :
    ∀ hs : List Str,
      findMatchLoop db number hs
        = (hs.map cleanHref).find? (matchesEntry db number) := by
  intro hs
  induction hs with
  | nil => rfl
  | cons h t ih =>
    simp only [findMatchLoop, List.map_cons, List.find?_cons]
    cases hm : matchesEntry db number (cleanHref h) <;> simp [hm, ih]

theorem chunk3_flatten {α : Type} : ∀ s : List α, (chunk3 s).flatten = s
  | [] => rfl
  | [_] => rfl
  | [_, _] => rfl
  | a :: b :: c :: rest => by
    simp [chunk3, chunk3_flatten rest]

theorem chunk3_dropLast_length {α : Type} :
    ∀ (s : List α) (c : List α), c ∈ (chunk3 s).dropLast → c.length = 3
  | [], c => by simp [chunk3]
  | [_], c => by simp [chunk3]
  | [_, _], c => by simp [chunk3]
  | a :: b :: x :: rest, c => by
    intro hc
    match hr : chunk3 rest, chunk3_dropLast_length rest with
    | [], _ => simp [chunk3, hr] at hc
    | y :: l, ih =>
      rw [chunk3, hr, List.dropLast_cons₂, List.mem_cons] at hc
      rcases hc with hc | hc
      · simp [hc]
      · exact ih c (hr ▸ hc)

theorem chunk3_getLast_length {α : Type} :
    ∀ (s : List α) (c : List α), (chunk3 s).getLast? = some c →
      0 < c.length ∧ c.length ≤ 3
  | [], c => by simp [chunk3]
  | [a], c => by intro h; simp [chunk3] at h; simp [h.symm]
  | [a, b], c => by intro h; simp [chunk3] at h; simp [h.symm]
  | a :: b :: x :: rest, c => by
    intro hc
    match hr : chunk3 rest, chunk3_getLast_length rest with
    | [], _ =>
      rw [chunk3, hr] at hc
      simp at hc
      simp [hc.symm]
    | y :: l, ih =>
      rw [chunk3, hr, List.getLast?_cons_cons] at hc
      exact ih c (hr ▸ hc)

theorem chunk3_of_length_seven {α : Type} {s : List α} (h : s.length = 7) :
    chunk3 s = [s.take 3, (s.drop 3).take 3, s.drop 6] := by
  rcases s with _ | ⟨a, _ | ⟨b, _ | ⟨c, _ | ⟨d, _ | ⟨e, _ | ⟨f, _ | ⟨g, rest⟩⟩⟩⟩⟩⟩⟩ <;>
    simp only [List.length_cons, List.length_nil] at h <;> try omega
  have hr : rest = [] := List.eq_nil_of_length_eq_zero (by omega)
  subst hr
  rfl

theorem prefixOf_imp {l₁ l₂ : Str} (h : l₁.isPrefixOf l₂ = true) :
    l₁ <+: l₂ := by
  exact List.isPrefixOf_iff_prefix.mp h

theorem findOcc_eq_none_of_not_contained {sep : Str} :
    ∀ {s : Str}, ¬ sep <:+: s → findOcc sep s = none := by
  intro s
  induction s with
  | nil =>
    intro h
    have hs : ¬ sep.isEmpty = true := by
      intro he
      rw [List.isEmpty_iff] at he
      exact h (he ▸ List.infix_refl ([] : Str))
    simp [findOcc, hs]
  | cons x xs ih =>
    intro h
    have h1 : sep.isPrefixOf (x :: xs) = false := by
      cases hp : sep.isPrefixOf (x :: xs)
      · rfl
      · exact absurd (prefixOf_imp hp).isInfix h
    have h2 : ¬ sep <:+: xs := fun hi => h (List.infix_cons_iff.mpr (Or.inr hi))
    simp [findOcc, h1, ih h2]

theorem splitOnStr_eq_single {sep s : Str} (h : findOcc sep s = none) :
    splitOnStr sep s = [s] := by
  simp [splitOnStr, splitOnAux, h]

theorem splitOnStr_eq_pair {sep s pre post : Str}
    (h1 : findOcc sep s = some (pre, post))
    (h2 : findOcc sep post = none) :
    splitOnStr sep s = [pre, post] := by
  unfold splitOnStr
  simp only [splitOnAux, h1]
  cases hl : s.length with
  | zero => simp [splitOnAux]
  | succ n => simp [splitOnAux, h2]

theorem extractFailedUrl_of_no_marker {msg : Str}
    (h : ¬ markerStr <:+: msg) :
    extractFailedUrl msg = "Unknown URL".data := by
  rw [extractFailedUrl, splitOnStr_eq_single (findOcc_eq_none_of_not_contained h)]
  rfl

theorem extractFailedUrl_single_marker {msg pre post : Str}
    (h1 : findOcc markerStr msg = some (pre, post))
    (h2 : findOcc markerStr post = none) :
    extractFailedUrl msg = trimStr post := by
  rw [extractFailedUrl, splitOnStr_eq_pair h1 h2]
  rfl

theorem prefix_split_append :
    ∀ {a m b : Str}, m <+: a ++ b → m <+: a ∨ ∃ m2, m = a ++ m2 ∧ m2 <+: b := by
  intro a
  induction a with
  | nil =>
    intro m b h
    exact Or.inr ⟨m, rfl, by simpa using h⟩
  | cons x a' ih =>
    intro m b h
    cases m with
    | nil => exact Or.inl List.nil_prefix
    | cons y m' =>
      rw [List.cons_append, List.cons_prefix_cons] at h
      obtain ⟨rfl, h'⟩ := h
      rcases ih h' with h2 | ⟨m2, hm2, hpre⟩
      · exact Or.inl (List.cons_prefix_cons.mpr ⟨rfl, h2⟩)
      · refine Or.inr ⟨m2, ?_, hpre⟩
        rw [hm2]
        rfl

theorem infix_append_cases {m : Str} :
    ∀ {a b : Str}, m <:+: a ++ b →
      m <:+: a ∨ m <:+: b ∨
        ∃ m1 m2, m = m1 ++ m2 ∧ m1 ≠ [] ∧ m2 ≠ [] ∧ m1 <:+ a ∧ m2 <+: b := by
  intro a
  induction a with
  | nil =>
    intro b h
    exact Or.inr (Or.inl (by simpa using h))
  | cons x a' ih =>
    intro b h
    rw [List.cons_append, List.infix_cons_iff] at h
    rcases h with h | h
    · rcases prefix_split_append (a := x :: a') (by simpa using h) with
        h2 | ⟨m2, hm, hm2⟩
      · exact Or.inl h2.isInfix
      · cases m2 with
        | nil => exact Or.inl (by simp [hm])
        | cons z m2' =>
          exact Or.inr (Or.inr ⟨x :: a', z :: m2', by simpa using hm,
            by simp, by simp, List.suffix_refl _, hm2⟩)
    · rcases ih h with h2 | h2 | ⟨m1, m2, hm, h1ne, h2ne, hsuf, hpre⟩
      · exact Or.inl (List.infix_cons_iff.mpr (Or.inr h2))
      · exact Or.inr (Or.inl h2)
      · exact Or.inr (Or.inr ⟨m1, m2, hm, h1ne, h2ne,
          hsuf.trans (List.suffix_cons x a'), hpre⟩)

theorem digitChr_isDigit {d : Nat} (h : d < 10) :
    (digitChr d).isDigit = true := by
  interval_cases d <;> rfl

theorem natToCharsAux_digits :
    ∀ (fuel n : Nat) {c : Char}, c ∈ natToCharsAux fuel n →
      c.isDigit = true := by
  intro fuel
  induction fuel with
  | zero => intro n c h; simp [natToCharsAux] at h
  | succ f ih =>
    intro n c h
    by_cases hn : n < 10
    · simp only [natToCharsAux, if_pos hn, List.mem_singleton] at h
      exact h ▸ digitChr_isDigit hn
    · simp only [natToCharsAux, if_neg hn, List.mem_append,
        List.mem_singleton] at h
      rcases h with h | h
      · exact ih _ h
      · exact h ▸ digitChr_isDigit (Nat.mod_lt _ (by decide))

theorem natToChars_digits {n : Nat} {c : Char} (h : c ∈ natToChars n) :
    c.isDigit = true :=
  natToCharsAux_digits _ _ h

theorem marker_chars_not_digit {c : Char} (h : c ∈ markerStr) :
    c.isDigit = false := by
  rw [show markerStr = ['r', 'e', 't', 'r', 'i', 'e', 's', ':', ' ']
      from rfl] at h
  simp only [List.mem_cons, List.not_mem_nil, or_false] at h
  rcases h with rfl | rfl | rfl | rfl | rfl | rfl | rfl | rfl | rfl <;> rfl

theorem marker_not_infix_status (s : Nat) :
    ¬ markerStr <:+:
      ("Failed to open genome directory: HTTP ".data ++ natToChars s) := by
  intro h
  rcases infix_append_cases h with h | h | ⟨m1, m2, hm, _, h2ne, _, hpre⟩
  · exact absurd h (by decide)
  · have hr : 'r' ∈ markerStr := by decide
    have := natToChars_digits (h.subset hr)
    simp at this
  · obtain ⟨z, m2', rfl⟩ : ∃ z m2', m2 = z :: m2' := by
      cases m2 with
      | nil => exact absurd rfl h2ne
      | cons z m2' => exact ⟨z, m2', rfl⟩
    have hzm : z ∈ markerStr := by
      rw [hm]
      exact List.mem_append_right m1 (List.mem_cons_self z m2')
    have hzd : z ∈ natToChars s :=
      hpre.sublist.subset (List.mem_cons_self z m2')
    have h1 := natToChars_digits hzd
    have h2 := marker_chars_not_digit hzm
    rw [h1] at h2
    exact absurd h2 (by decide)

theorem marker_not_infix_noMatch {a : Str} (ha : ¬ markerStr <:+: a) :
    ¬ markerStr <:+:
      ("No matching genome found for accession ".data ++ a) := by
  intro h
  rcases infix_append_cases h with h | h | ⟨m1, m2, hm, h1ne, h2ne, hsuf, _⟩
  · exact absurd h (by decide)
  · exact ha h
  · have hk0 : 0 < m1.length := List.length_pos.mpr h1ne
    have hk9 : m1.length < markerStr.length := by
      rw [hm, List.length_append]
      have : 0 < m2.length := List.length_pos.mpr h2ne
      omega
    have hm1 : m1 = markerStr.take m1.length := by
      rw [hm, List.take_left]
    have hlast : m1.getLast? = some ' ' := by
      obtain ⟨t, ht⟩ := hsuf
      have := congrArg List.getLast? ht
      rwa [List.getLast?_append_of_ne_nil t h1ne] at this
    have hfin : ∀ k, k < markerStr.length → 0 < k →
        (markerStr.take k).getLast? ≠ some ' ' := by decide
    exact hfin m1.length hk9 hk0 (hm1 ▸ hlast)

theorem downloadGo_requests (env : Env) (url path : Str) (rc : Nat) :
    ∀ att idx : Nat,
      (∀ r ∈ (downloadGo env url path rc att idx).requests, r = url) ∧
      (downloadGo env url path rc att idx).requests.length ≤ att := by
  intro att
  induction att with
  | zero => intro idx; exact ⟨by simp [downloadGo], by simp [downloadGo]⟩
  | succ a ih =>
    intro idx
    rcases hs : env.send url idx with m | resp
    · refine ⟨?_, ?_⟩
      · intro r hr
        simp only [downloadGo, hs, List.mem_cons] at hr
        rcases hr with rfl | hr
        · rfl
        · exact (ih (idx + 1)).1 r hr
      · simp only [downloadGo, hs, List.length_cons]
        exact Nat.succ_le_succ (ih (idx + 1)).2
    · cases hss : statusIsSuccess resp.status with
      | false =>
        refine ⟨?_, ?_⟩
        · intro r hr
          simp only [downloadGo, hs, hss, Bool.false_eq_true, if_false,
            List.mem_cons] at hr
          rcases hr with rfl | hr
          · rfl
          · exact (ih (idx + 1)).1 r hr
        · simp only [downloadGo, hs, hss, Bool.false_eq_true, if_false,
            List.length_cons]
          exact Nat.succ_le_succ (ih (idx + 1)).2
      | true =>
        rcases hb : resp.body with m | data
        · exact ⟨by intro r hr; simp only [downloadGo, hs, hss, hb,
            if_true, List.mem_singleton] at hr; exact hr,
            by simp [downloadGo, hs, hss, hb]⟩
        · cases hw : env.writeOk path with
          | false =>
            exact ⟨by intro r hr; simp only [downloadGo, hs, hss, hb, hw,
              Bool.false_eq_true, if_true, if_false,
              List.mem_singleton] at hr; exact hr,
              by simp [downloadGo, hs, hss, hb, hw]⟩
          | true =>
            exact ⟨by intro r hr; simp only [downloadGo, hs, hss, hb, hw,
              if_true, List.mem_singleton] at hr; exact hr,
              by simp [downloadGo, hs, hss, hb, hw]⟩

theorem downloadGo_fail_step (env : Env) (url path : Str) (rc att idx : Nat)
    (h : attemptFails (env.send url idx) = true) :
    downloadGo env url path rc (att + 1) idx
      = ⟨(downloadGo env url path rc att (idx + 1)).result,
         (downloadGo env url path rc att (idx + 1)).writes,
         url :: (downloadGo env url path rc att (idx + 1)).requests⟩ := by
  rcases hs : env.send url idx with m | resp
  · simp [downloadGo, hs]
  · have hss : statusIsSuccess resp.status = false := by
      rw [hs] at h
      simpa [attemptFails] using h
    simp [downloadGo, hs, hss]

theorem downloadGo_success_step (env : Env) (url path : Str)
    (rc att idx status : Nat) (body : Str)
    (hs : env.send url idx = .ok ⟨status, .ok body⟩)
    (hst : statusIsSuccess status = true)
    (hw : env.writeOk path = true) :
    downloadGo env url path rc (att + 1) idx
      = ⟨.ok (), [(path, body)], [url]⟩ := by
  simp [downloadGo, hs, hst, hw]

theorem downloadGo_all_fail (env : Env) (url path : Str) (rc : Nat) :
    ∀ att idx : Nat,
      (∀ i, i < att → attemptFails (env.send url (idx + i)) = true) →
      downloadGo env url path rc att idx
        = ⟨.error (.retriesExhausted rc url), [], List.replicate att url⟩ := by
  intro att
  induction att with
  | zero => intro idx _; rfl
  | succ a ih =>
    intro idx h
    have h0 : attemptFails (env.send url idx) = true := by
      have := h 0 (Nat.succ_pos a)
      rwa [Nat.add_zero] at this
    have hrest : ∀ i, i < a →
        attemptFails (env.send url (idx + 1 + i)) = true := by
      intro i hi
      have := h (i + 1) (Nat.succ_lt_succ hi)
      rwa [show idx + (i + 1) = idx + 1 + i by omega] at this
    rw [downloadGo_fail_step env url path rc a idx h0, ih (idx + 1) hrest,
      List.replicate_succ]

theorem downloadTargets_all_ok (env : Env) (rc : Nat) :
    ∀ ts : List (Str × Str),
      (∀ t ∈ ts, (downloadWithRetry env t.1 t.2 rc).result = .ok ()) →
      downloadTargets env rc ts
        = ⟨.ok (),
           (ts.map (fun t => (downloadWithRetry env t.1 t.2 rc).writes)).flatten,
           (ts.map
             (fun t => (downloadWithRetry env t.1 t.2 rc).requests)).flatten⟩ := by
  intro ts
  induction ts with
  | nil => intro _; rfl
  | cons t rest ih =>
    intro h
    obtain ⟨url, path⟩ := t
    have ht := h (url, path) (List.mem_cons_self _ _)
    rcases hd : downloadWithRetry env url path rc with ⟨res, w, q⟩
    rw [hd] at ht
    simp only at ht
    subst ht
    simp only [downloadTargets, hd,
      ih (fun u hu => h u (List.mem_cons_of_mem _ hu)), List.map_cons,
      List.flatten_cons, hd]

theorem downloadTargets_first_fail (env : Env) (rc : Nat) (e : DlError)
    (t : Str × Str) :
    ∀ ts1 ts2 : List (Str × Str),
      (∀ u ∈ ts1, (downloadWithRetry env u.1 u.2 rc).result = .ok ()) →
      (downloadWithRetry env t.1 t.2 rc).result = .error e →
      downloadTargets env rc (ts1 ++ t :: ts2)
        = ⟨.error e,
           (ts1.map
             (fun u => (downloadWithRetry env u.1 u.2 rc).writes)).flatten
             ++ (downloadWithRetry env t.1 t.2 rc).writes,
           (ts1.map
             (fun u => (downloadWithRetry env u.1 u.2 rc).requests)).flatten
             ++ (downloadWithRetry env t.1 t.2 rc).requests⟩ := by
  intro ts1
  induction ts1 with
  | nil =>
    intro ts2 _ hf
    obtain ⟨url, path⟩ := t
    rcases hd : downloadWithRetry env url path rc with ⟨res, w, q⟩
    rw [hd] at hf
    simp only at hf
    subst hf
    simp [downloadTargets, hd]
  | cons u rest ih =>
    intro ts2 h hf
    obtain ⟨url, path⟩ := u
    have hu := h (url, path) (List.mem_cons_self _ _)
    rcases hd : downloadWithRetry env url path rc with ⟨res, w, q⟩
    rw [hd] at hu
    simp only at hu
    subst hu
    simp only [List.cons_append, downloadTargets, hd, List.append_eq,
      ih ts2 (fun v hv => h v (List.mem_cons_of_mem _ hv)) hf,
      List.map_cons, List.flatten_cons, List.append_assoc]

theorem failureRecords_eq_filterMap (env : Env) (loc : Str) (retry : Nat)
    (accs : List Str) :
    failureRecords env loc retry accs
      = (pipelineResults env loc retry accs).filterMap recordOf := by
  unfold failureRecords pipelineResults chunkRecords
  rw [List.filterMap_flatten, List.map_map]
  rfl

theorem pipelineResults_fst (env : Env) (loc : Str) (retry : Nat)
    (accs : List Str) :
    (pipelineResults env loc retry accs).map Prod.fst = accs := by
  unfold pipelineResults windowResults
  rw [List.map_flatten, List.map_map]
  have hw : ∀ w : List Str,
      (List.map Prod.fst ∘ fun w : List Str =>
        w.map (fun a => (a, processAccession env a loc (some retry)))) w
        = w := by
    intro w
    show List.map Prod.fst
      (w.map (fun a => (a, processAccession env a loc (some retry)))) = w
    rw [List.map_map,
      show (Prod.fst ∘ fun a : Str =>
          (a, processAccession env a loc (some retry))) = id
        from funext (fun _ => rfl)]
    exact List.map_id w
  calc ((chunk3 accs).map
          (List.map Prod.fst ∘ fun w : List Str =>
            w.map (fun a => (a, processAccession env a loc (some retry))))).flatten
      = ((chunk3 accs).map id).flatten := by
        rw [List.map_congr_left (fun w _ => hw w)]
        rfl
    _ = accs := by rw [List.map_id]; exact chunk3_flatten accs

theorem pipelineResults_length (env : Env) (loc : Str) (retry : Nat)
    (accs : List Str) :
    (pipelineResults env loc retry accs).length = accs.length := by
  have := congrArg List.length (pipelineResults_fst env loc retry accs)
  rwa [List.length_map] at this

/-! ## Claim theorems -/

/-- C5: for every digit string `number`, the sharded path segment is the
groups of three characters, left to right (last group possibly shorter),
joined with `/`: the grouping concatenates back to the input, every group
but the last has exactly three characters, the last has between one and
three, and `"12345"` yields `"123/45"` while `"123456"` yields
`"123/456"`. -/
theorem claim_C5_sharded_path :
    numberPath "12345".data = "123/45".data ∧
    numberPath "123456".data = "123/456".data ∧
    (∀ s : Str, numberPath s = joinSep '/' (chunk3 s)) ∧
    (∀ s : Str, (chunk3 s).flatten = s) ∧
    (∀ s c : Str, c ∈ (chunk3 s).dropLast → c.length = 3) ∧
    (∀ s c : Str, (chunk3 s).getLast? = some c →
      0 < c.length ∧ c.length ≤ 3) :=
  ⟨rfl, rfl, fun _ => rfl, chunk3_flatten,
   chunk3_dropLast_length, chunk3_getLast_length⟩

/-- Witness for C5 at the concrete input `"12345"`: the first group of the
partition is a non-final group and has exactly three characters. -/
theorem claim_C5_sharded_path_witness :
    "123".data ∈ (chunk3 "12345".data).dropLast ∧
      ("123".data : Str).length = 3 :=
  ⟨by decide,
   claim_C5_sharded_path.2.2.2.2.1 "12345".data "123".data (by decide)⟩

/-- C7: for every accession string containing no underscore, resolution
fails with the malformed-accession error and issues no GET at all (the
request log is empty). -/
theorem claim_C7_no_underscore (env : Env) (accession : Str)
    (h : '_' ∉ accession) :
    fetchFullFilename env accession = (.error .invalidAccession, []) := by
  have hsplit : splitOnceChar '_' (trimStr accession) = none :=
    splitOnceChar_eq_none (fun hm => h (mem_of_mem_trimStr hm))
  simp [fetchFullFilename, hsplit]

/-- Witness for C7: the accession `GCF000001405` (underscore missing)
resolves to the malformed-accession error with an empty request log, in
any environment. -/
theorem claim_C7_no_underscore_witness :
    fetchFullFilename envAllFail "GCF000001405".data
      = (.error .invalidAccession, []) :=
  claim_C7_no_underscore envAllFail "GCF000001405".data (by decide)

/-- C1: for every accession parsed as `db` and `number` (version after a
`.` ignored) and every listing page served with a success status, the
resolver returns `(base_url ++ "/" ++ name, name)` where `name` is the
first anchor href in listing order which, after stripping one trailing
`/`, starts with `db` and whose second `_`-delimited field starts with
`number`; in particular the spec's worked example resolves to the first
entry with the slash stripped. -/
theorem claim_C1_first_match (env : Env)
    (accession db acc text : Str) (status : Nat)
    (hparse : splitOnceChar '_' (trimStr accession) = some (db, acc))
    (hsend : env.send (mkBaseUrl db (numberOf acc)) 0
      = .ok ⟨status, .ok text⟩)
    (hst : statusIsSuccess status = true) :
    (∀ name : Str,
      ((extractHrefs text).map cleanHref).find?
          (matchesEntry db (numberOf acc)) = some name →
      fetchFullFilename env accession
        = (.ok (mkBaseUrl db (numberOf acc) ++ '/' :: name, name),
           [mkBaseUrl db (numberOf acc)])) ∧
    fetchFullFilename envExample "GCF_000001405.40".data
      = (.ok (mkBaseUrl "GCF".data "000001405".data
                ++ '/' :: "GCF_000001405.40_GRCh38.p14".data,
              "GCF_000001405.40_GRCh38.p14".data),
         [mkBaseUrl "GCF".data "000001405".data]) := by
  constructor
  · intro name hname
    rw [← findMatchLoop_eq_find] at hname
    simp [fetchFullFilename, hparse, hsend, hst, hname]
  · rfl

/-- Witness for C1: the worked example run through the general first-match
statement, with every hypothesis discharged by computation. -/
theorem claim_C1_first_match_witness :
    fetchFullFilename envExample "GCF_000001405.40".data
      = (.ok (mkBaseUrl "GCF".data "000001405".data
                ++ '/' :: "GCF_000001405.40_GRCh38.p14".data,
              "GCF_000001405.40_GRCh38.p14".data),
         [mkBaseUrl "GCF".data "000001405".data]) :=
  (claim_C1_first_match envExample "GCF_000001405.40".data
      "GCF".data "000001405.40".data pageC1 200 rfl rfl rfl).1
    "GCF_000001405.40_GRCh38.p14".data (by decide)

/-- C8: under a parsed accession whose directory GET returns a response,
resolution fails with the directory-unavailable error carrying the HTTP
status exactly when the status is not a success; and when the body reads
as `text`, it fails with the distinct no-match error carrying the
accession exactly when the status is a success but no listing entry
passes the `db`/`number` prefix test. -/
theorem claim_C8_resolution_errors (env : Env)
    (accession db acc : Str) (resp : Resp)
    (hparse : splitOnceChar '_' (trimStr accession) = some (db, acc))
    (hsend : env.send (mkBaseUrl db (numberOf acc)) 0 = .ok resp) :
    ((fetchFullFilename env accession).1
        = .error (.dirUnavailable resp.status)
      ↔ statusIsSuccess resp.status = false) ∧
    (∀ text : Str, resp.body = .ok text →
      ((fetchFullFilename env accession).1 = .error (.noMatch accession)
        ↔ statusIsSuccess resp.status = true ∧
          findMatchLoop db (numberOf acc) (extractHrefs text) = none)) := by
  constructor
  · cases hss : statusIsSuccess resp.status with
    | false => simp [fetchFullFilename, hparse, hsend, hss]
    | true =>
      rcases hb : resp.body with m | text
      · simp [fetchFullFilename, hparse, hsend, hss, hb]
      · cases hf : findMatchLoop db (numberOf acc) (extractHrefs text) with
        | none => simp [fetchFullFilename, hparse, hsend, hss, hb, hf]
        | some clean => simp [fetchFullFilename, hparse, hsend, hss, hb, hf]
  · intro text hbt
    cases hss : statusIsSuccess resp.status with
    | false => simp [fetchFullFilename, hparse, hsend, hss]
    | true =>
      cases hf : findMatchLoop db (numberOf acc) (extractHrefs text) with
      | none => simp [fetchFullFilename, hparse, hsend, hss, hbt, hf]
      | some clean => simp [fetchFullFilename, hparse, hsend, hss, hbt, hf]

/-- Witness for C8: a mocked 404 yields the directory-unavailable error
with status 404, and a mocked empty 200 listing yields the no-match error
for the accession, on the same parsed accession. -/
theorem claim_C8_resolution_errors_witness :
    (fetchFullFilename env404 "GCF_000001405.40".data).1
        = .error (.dirUnavailable 404) ∧
    (fetchFullFilename envEmptyListing "GCF_000001405.40".data).1
        = .error (.noMatch "GCF_000001405.40".data) :=
  ⟨(claim_C8_resolution_errors env404 "GCF_000001405.40".data
      "GCF".data "000001405.40".data ⟨404, .ok []⟩ rfl rfl).1.mpr rfl,
   ((claim_C8_resolution_errors envEmptyListing "GCF_000001405.40".data
      "GCF".data "000001405.40".data ⟨200, .ok []⟩ rfl rfl).2
      [] rfl).mpr ⟨rfl, rfl⟩⟩

/-- C2: the fetcher issues GETs only to the requested URL and at most
`retryCount` of them, retrying on transport error or non-success status; a
fetch whose first two attempts fail and whose third succeeds (retry count
3) writes the full response body to the destination and returns success;
and a fetch all of whose configured attempts fail returns the
retries-exhausted failure carrying the requested URL (and writes
nothing). -/
theorem claim_C2_retry_fetch (env : Env) (url path body : Str)
    (status retryCount : Nat) :
    ((∀ r ∈ (downloadWithRetry env url path retryCount).requests, r = url) ∧
      (downloadWithRetry env url path retryCount).requests.length
        ≤ retryCount) ∧
    (attemptFails (env.send url 0) = true →
      attemptFails (env.send url 1) = true →
      env.send url 2 = .ok ⟨status, .ok body⟩ →
      statusIsSuccess status = true →
      env.writeOk path = true →
      downloadWithRetry env url path 3
        = ⟨.ok (), [(path, body)], [url, url, url]⟩) ∧
    ((∀ i, i < retryCount → attemptFails (env.send url i) = true) →
      downloadWithRetry env url path retryCount
        = ⟨.error (.retriesExhausted retryCount url), [],
           List.replicate retryCount url⟩) := by
  refine ⟨downloadGo_requests env url path retryCount retryCount 0,
    ?_, ?_⟩
  · intro h0 h1 h2 hst hw
    unfold downloadWithRetry
    rw [show (3 : Nat) = 2 + 1 from rfl,
      downloadGo_fail_step env url path 3 2 0 h0,
      show (2 : Nat) = 1 + 1 from rfl,
      downloadGo_fail_step env url path 3 1 1 h1,
      show (1 : Nat) = 0 + 1 from rfl,
      downloadGo_success_step env url path 3 0 2 status body h2 hst hw]
  · intro h
    unfold downloadWithRetry
    rw [downloadGo_all_fail env url path retryCount retryCount 0
      (fun i hi => by simpa using h i hi)]

/-- Witness for C2: in the two-transport-failures-then-200 environment a
download with retry count 3 writes the body and logs three attempts, and
in the always-failing environment a download with retry count 2 exhausts
its retries carrying the URL. -/
theorem claim_C2_retry_fetch_witness :
    downloadWithRetry envTwoFailThenOk "u".data "p".data 3
      = ⟨.ok (), [("p".data, "DATA".data)], ["u".data, "u".data, "u".data]⟩ ∧
    downloadWithRetry envAllFail "u".data "p".data 2
      = ⟨.error (.retriesExhausted 2 "u".data), [],
         List.replicate 2 "u".data⟩ :=
  ⟨(claim_C2_retry_fetch envTwoFailThenOk "u".data "p".data "DATA".data
      200 3).2.1 rfl rfl rfl rfl rfl,
   (claim_C2_retry_fetch envAllFail "u".data "p".data [] 0 2).2.2
      (fun _ _ => rfl)⟩

/-- C4 (amended): for every run, the orchestrator emits exactly one
failure record per failed pipeline — the records are exactly `recordOf`
filtered over the pipeline outcomes — and a failure never aborts the run:
every deduplicated accession is processed across the windows. The url
field is computed by splitting the message on `"retries: "` and taking
the second piece, trimmed: when the marker is absent this is the
placeholder `"Unknown URL"`, and when the marker occurs exactly once it is
the trimmed text after the marker. -/
theorem claim_C4_failure_records (env : Env) (loc : Str) (retry : Nat)
    (accs : List Str) :
    failureRecords env loc retry accs
      = (pipelineResults env loc retry accs).filterMap recordOf ∧
    (pipelineResults env loc retry accs).map Prod.fst = accs ∧
    (∀ msg : Str, ¬ markerStr <:+: msg →
      extractFailedUrl msg = "Unknown URL".data) ∧
    (∀ msg pre post : Str, findOcc markerStr msg = some (pre, post) →
      findOcc markerStr post = none →
      extractFailedUrl msg = trimStr post) :=
  ⟨failureRecords_eq_filterMap env loc retry accs,
   pipelineResults_fst env loc retry accs,
   fun _ h => extractFailedUrl_of_no_marker h,
   fun _ _ _ h1 h2 => extractFailedUrl_single_marker h1 h2⟩

/-- Counterexample to C4 as stated: with the accession
`A retries: B retries: C_1` and an empty 200 listing, the single pipeline
fails with the no-match error, whose message contains the marker, yet the
emitted url is `B` — the trimmed text *between* the first and second
occurrences of the marker — not the text after the marker, which is
`B retries: C_1`. -/
theorem claim_C4_failure_records_counterexample :
    (pipelineResults envEmptyListing ".".data 3 [accTwoMarkers]).map
        (fun p => (p.1, p.2.result))
      = [(accTwoMarkers, .error (.noMatch accTwoMarkers))] ∧
    failureRecords envEmptyListing ".".data 3 [accTwoMarkers]
      = [(accTwoMarkers, "B".data)] ∧
    specUrlAfterMarker (DlError.noMatch accTwoMarkers).message
      = some "B retries: C_1".data ∧
    ("B".data : Str) ≠ "B retries: C_1".data := by
  refine ⟨by decide, by decide, by decide, by decide⟩

/-- Witness for C4: a marker-free message yields the placeholder, and the
retries-exhausted message with a clean URL yields exactly that URL. -/
theorem claim_C4_failure_records_witness :
    extractFailedUrl "plain failure".data = "Unknown URL".data ∧
    extractFailedUrl
        (DlError.retriesExhausted 3 "http://x".data).message
      = trimStr "http://x".data :=
  ⟨(claim_C4_failure_records envAllFail [] 0 []).2.2.1
      "plain failure".data (by decide),
   (claim_C4_failure_records envAllFail [] 0 []).2.2.2
      (DlError.retriesExhausted 3 "http://x".data).message
      "Failed to download file after 3 ".data "http://x".data
      (by decide) (by decide)⟩

/-- C10 (amended): a failed pipeline whose error is malformed-accession,
directory-unavailable (any status), no-match for an accession that does
not itself contain the marker `"retries: "`, body-read, or file-write is
recorded with the placeholder url `"Unknown URL"`, because none of those
messages contains the marker; the no-match message embeds the raw
accession, so an accession containing the marker escapes this. -/
theorem claim_C10_placeholder_url (p : Str × PipeOut) (e : DlError)
    (hres : p.2.result = .error e)
    (hkind : e = .invalidAccession ∨ (∃ s, e = .dirUnavailable s) ∨
      (∃ a, e = .noMatch a ∧ ¬ markerStr <:+: a) ∨
      e = .bytesRead ∨ e = .fileWrite) :
    recordOf p = some (p.1, "Unknown URL".data) := by
  have hmsg : extractFailedUrl e.message = "Unknown URL".data := by
    rcases hkind with rfl | ⟨s, rfl⟩ | ⟨a, rfl, ha⟩ | rfl | rfl
    · exact extractFailedUrl_of_no_marker (by decide)
    · exact extractFailedUrl_of_no_marker (marker_not_infix_status s)
    · exact extractFailedUrl_of_no_marker (marker_not_infix_noMatch ha)
    · exact extractFailedUrl_of_no_marker (by decide)
    · exact extractFailedUrl_of_no_marker (by decide)
  unfold recordOf
  rw [hres]
  show some (p.1, extractFailedUrl e.message)
    = some (p.1, "Unknown URL".data)
  rw [hmsg]

/-- Counterexample to C10 as stated: the pipeline for the accession
`A retries: B_1` against an empty 200 listing fails with a resolution
(no-match) error, yet its failure record carries the url `B_1`, not the
placeholder: the no-match message embeds the accession, which contains
the marker. -/
theorem claim_C10_placeholder_url_counterexample :
    (pipelineResults envEmptyListing ".".data 3 [accOneMarker]).map
        (fun p => (p.1, p.2.result))
      = [(accOneMarker, .error (.noMatch accOneMarker))] ∧
    failureRecords envEmptyListing ".".data 3 [accOneMarker]
      = [(accOneMarker, "B_1".data)] ∧
    ("B_1".data : Str) ≠ "Unknown URL".data := by
  refine ⟨by decide, by decide, by decide⟩

/-- Witness for C10: a pipeline that hit a 404 directory listing is
recorded with the placeholder url. -/
theorem claim_C10_placeholder_url_witness :
    recordOf ("GCF_000001405.40".data,
        processAccession env404 "GCF_000001405.40".data ".".data (some 3))
      = some ("GCF_000001405.40".data, "Unknown URL".data) :=
  claim_C10_placeholder_url
    ("GCF_000001405.40".data,
      processAccession env404 "GCF_000001405.40".data ".".data (some 3))
    (.dirUnavailable 404) (by decide) (Or.inr (Or.inl ⟨404, rfl⟩))

/-- C9: for the input rows `["A_1", "A_1", "B_2"]`, any iteration order of
the deduplicating `HashSet` has exactly two accessions and drives exactly
two pipelines; and the reversed order `["B_2", "A_1"]` is itself an
admissible iteration order, so insertion order need not be preserved. -/
theorem claim_C9_dedup (env : Env) (loc : Str) (retry : Nat)
    (dl : List Str)
    (h : DedupOf ["A_1".data, "A_1".data, "B_2".data] dl) :
    dl.length = 2 ∧
    (pipelineResults env loc retry dl).length = 2 ∧
    ∃ dl2 : List Str,
      DedupOf ["A_1".data, "A_1".data, "B_2".data] dl2 ∧
      dl2 ≠ ["A_1".data, "B_2".data] := by
  obtain ⟨hnd, hmem⟩ := h
  have hpi : processedInput ["A_1".data, "A_1".data, "B_2".data]
      = ["A_1".data, "A_1".data, "B_2".data] := by decide
  have hperm : List.Perm dl ["A_1".data, "B_2".data] := by
    rw [List.perm_ext_iff_of_nodup hnd (by decide)]
    intro a
    rw [hmem a, hpi]
    simp only [List.mem_cons, List.not_mem_nil, or_false]
    tauto
  have hlen : dl.length = 2 := by simpa using hperm.length_eq
  refine ⟨hlen, ?_, ?_⟩
  · rw [pipelineResults_length]
    exact hlen
  · refine ⟨["B_2".data, "A_1".data], ⟨by decide, ?_⟩, by decide⟩
    intro a
    rw [hpi]
    simp only [List.mem_cons, List.not_mem_nil, or_false]
    tauto

/-- Witness for C9: the reversed iteration order `["B_2", "A_1"]`
satisfies the dedup contract and drives exactly two pipelines. -/
theorem claim_C9_dedup_witness :
    (["B_2".data, "A_1".data] : List Str).length = 2 ∧
    (pipelineResults envEmptyListing ".".data 3
        ["B_2".data, "A_1".data]).length = 2 ∧
    ∃ dl2 : List Str,
      DedupOf ["A_1".data, "A_1".data, "B_2".data] dl2 ∧
      dl2 ≠ ["A_1".data, "B_2".data] :=
  claim_C9_dedup envEmptyListing ".".data 3 ["B_2".data, "A_1".data]
    ⟨by decide, fun a => by
      rw [show processedInput ["A_1".data, "A_1".data, "B_2".data]
          = ["A_1".data, "A_1".data, "B_2".data] from by decide]
      simp only [List.mem_cons, List.not_mem_nil, or_false]
      tauto⟩

/-- C6: the pipeline resolves at most one listing GET; a resolution
failure aborts with that error before any artifact fetch (no writes, no
further requests); on resolution success the download targets are the
fixed ordered list genomic, protein, then the standalone checksums file;
when a prefix of the targets succeeds and the next one fails, the
pipeline reports that failure, issues no request for the remaining
targets, and the files already written by the successful prefix remain
recorded. -/
theorem claim_C6_fail_fast (env : Env) (accession loc : Str)
    (retry : Option Nat) :
    (fetchFullFilename env accession).2.length ≤ 1 ∧
    (∀ e reqs, fetchFullFilename env accession = (.error e, reqs) →
      processAccession env accession loc retry = ⟨.error e, [], reqs⟩) ∧
    (∀ baseUrl fullName : Str,
      pipelineTargets baseUrl fullName accession loc
        = [(baseUrl ++ '/' :: (fullName ++ "_genomic.fna.gz".data),
            pathJoin loc (accession ++ "_genomic.fna.gz".data)),
           (baseUrl ++ '/' :: (fullName ++ "_protein.faa.gz".data),
            pathJoin loc (accession ++ "_protein.faa.gz".data)),
           (baseUrl ++ '/' :: "md5checksums.txt".data,
            pathJoin loc (accession ++ "_md5checksums.txt".data))]) ∧
    (∀ baseUrl fullName reqs ts1 ts2 (t : Str × Str) (e : DlError),
      fetchFullFilename env accession = (.ok (baseUrl, fullName), reqs) →
      pipelineTargets baseUrl fullName accession loc = ts1 ++ t :: ts2 →
      (∀ u ∈ ts1,
        (downloadWithRetry env u.1 u.2 (retry.getD 3)).result = .ok ()) →
      (downloadWithRetry env t.1 t.2 (retry.getD 3)).result = .error e →
      processAccession env accession loc retry
        = ⟨.error e,
           (ts1.map (fun u =>
             (downloadWithRetry env u.1 u.2 (retry.getD 3)).writes)).flatten
             ++ (downloadWithRetry env t.1 t.2 (retry.getD 3)).writes,
           reqs ++
             ((ts1.map (fun u =>
               (downloadWithRetry env u.1 u.2
                 (retry.getD 3)).requests)).flatten
               ++ (downloadWithRetry env t.1 t.2
                     (retry.getD 3)).requests)⟩) ∧
    (∀ baseUrl fullName reqs,
      fetchFullFilename env accession = (.ok (baseUrl, fullName), reqs) →
      (∀ u ∈ pipelineTargets baseUrl fullName accession loc,
        (downloadWithRetry env u.1 u.2 (retry.getD 3)).result = .ok ()) →
      processAccession env accession loc retry
        = ⟨.ok (),
           ((pipelineTargets baseUrl fullName accession loc).map (fun u =>
             (downloadWithRetry env u.1 u.2 (retry.getD 3)).writes)).flatten,
           reqs ++
             ((pipelineTargets baseUrl fullName accession loc).map (fun u =>
               (downloadWithRetry env u.1 u.2
                 (retry.getD 3)).requests)).flatten⟩) := by
  refine ⟨?_, ?_, ?_, ?_, ?_⟩
  · rcases hparse : splitOnceChar '_' (trimStr accession) with _ | ⟨db, acc⟩
    · simp [fetchFullFilename, hparse]
    · rcases hs : env.send (mkBaseUrl db (numberOf acc)) 0 with m | resp
      · simp [fetchFullFilename, hparse, hs]
      · cases hss : statusIsSuccess resp.status with
        | false => simp [fetchFullFilename, hparse, hs, hss]
        | true =>
          rcases hb : resp.body with m | text
          · simp [fetchFullFilename, hparse, hs, hss, hb]
          · cases hf : findMatchLoop db (numberOf acc)
                (extractHrefs text) with
            | none => simp [fetchFullFilename, hparse, hs, hss, hb, hf]
            | some clean =>
              simp [fetchFullFilename, hparse, hs, hss, hb, hf]
  · intro e reqs hres
    unfold processAccession
    rw [hres]
  · intro baseUrl fullName
    rfl
  · intro baseUrl fullName reqs ts1 ts2 t e hres htargets h1 hf
    unfold processAccession
    rw [hres]
    show (⟨(downloadTargets env (retry.getD 3)
        (pipelineTargets baseUrl fullName accession loc)).result,
      (downloadTargets env (retry.getD 3)
        (pipelineTargets baseUrl fullName accession loc)).writes,
      reqs ++ (downloadTargets env (retry.getD 3)
        (pipelineTargets baseUrl fullName accession loc)).requests⟩
        : PipeOut) = _
    rw [htargets,
      downloadTargets_first_fail env (retry.getD 3) e t ts1 ts2 h1 hf]
  · intro baseUrl fullName reqs hres hall
    unfold processAccession
    rw [hres]
    show (⟨(downloadTargets env (retry.getD 3)
        (pipelineTargets baseUrl fullName accession loc)).result,
      (downloadTargets env (retry.getD 3)
        (pipelineTargets baseUrl fullName accession loc)).writes,
      reqs ++ (downloadTargets env (retry.getD 3)
        (pipelineTargets baseUrl fullName accession loc)).requests⟩
        : PipeOut) = _
    rw [downloadTargets_all_ok env (retry.getD 3)
      (pipelineTargets baseUrl fullName accession loc) hall]


/-- Witness for C6: with retry count 1, when the listing and the genomic
artifact succeed but the protein artifact fails transport-side, the
pipeline reports that protein download's retries-exhausted error, never
requests the checksums file, and the genomic file already written
remains. -/
theorem claim_C6_fail_fast_witness :
    processAccession envSecondFails "GCF_000001405.40".data ".".data
        (some 1)
      = ⟨.error (.retriesExhausted 1
            "https://ftp.ncbi.nlm.nih.gov/genomes/all/GCF/000/001/405/GCF_000001405.40_GRCh38.p14/GCF_000001405.40_GRCh38.p14_protein.faa.gz".data),
         [("./GCF_000001405.40_genomic.fna.gz".data, pageC1)],
         ["https://ftp.ncbi.nlm.nih.gov/genomes/all/GCF/000/001/405".data,
          "https://ftp.ncbi.nlm.nih.gov/genomes/all/GCF/000/001/405/GCF_000001405.40_GRCh38.p14/GCF_000001405.40_GRCh38.p14_genomic.fna.gz".data,
          "https://ftp.ncbi.nlm.nih.gov/genomes/all/GCF/000/001/405/GCF_000001405.40_GRCh38.p14/GCF_000001405.40_GRCh38.p14_protein.faa.gz".data]⟩ :=
  ((claim_C6_fail_fast envSecondFails "GCF_000001405.40".data ".".data
      (some 1)).2.2.2.1
    "https://ftp.ncbi.nlm.nih.gov/genomes/all/GCF/000/001/405/GCF_000001405.40_GRCh38.p14".data
    "GCF_000001405.40_GRCh38.p14".data
    ["https://ftp.ncbi.nlm.nih.gov/genomes/all/GCF/000/001/405".data]
    [("https://ftp.ncbi.nlm.nih.gov/genomes/all/GCF/000/001/405/GCF_000001405.40_GRCh38.p14/GCF_000001405.40_GRCh38.p14_genomic.fna.gz".data,
      "./GCF_000001405.40_genomic.fna.gz".data)]
    [("https://ftp.ncbi.nlm.nih.gov/genomes/all/GCF/000/001/405/GCF_000001405.40_GRCh38.p14/md5checksums.txt".data,
      "./GCF_000001405.40_md5checksums.txt".data)]
    ("https://ftp.ncbi.nlm.nih.gov/genomes/all/GCF/000/001/405/GCF_000001405.40_GRCh38.p14/GCF_000001405.40_GRCh38.p14_protein.faa.gz".data,
      "./GCF_000001405.40_protein.faa.gz".data)
    (.retriesExhausted 1
      "https://ftp.ncbi.nlm.nih.gov/genomes/all/GCF/000/001/405/GCF_000001405.40_GRCh38.p14/GCF_000001405.40_GRCh38.p14_protein.faa.gz".data)
    (by decide) (by decide) (by decide) (by decide)).trans (by decide)

/-- C3: with 7 deduplicated accessions the orchestrator forms exactly 3
windows of sizes 3, 3 and 1, and every possible request trace of the run
decomposes as the window-1 segment, then the window-2 segment, then the
window-3 segment — each a permutation of that window's requests — so no
request of window N+1 occurs before any request of window N has been
issued and its window completed (the `join_all` barrier). -/
theorem claim_C3_windows (env : Env) (loc : Str) (retry : Nat)
    (accs : List Str) (h7 : accs.length = 7) :
    (chunk3 accs).map List.length = [3, 3, 1] ∧
    (chunk3 accs).length = 3 ∧
    ∀ t, PossibleTrace env loc retry accs t →
      ∃ t1 t2 t3,
        t = t1 ++ t2 ++ t3 ∧
        List.Perm t1 (windowRequests env loc retry (accs.take 3)) ∧
        List.Perm t2
          (windowRequests env loc retry ((accs.drop 3).take 3)) ∧
        List.Perm t3 (windowRequests env loc retry (accs.drop 6)) := by
  have hc := chunk3_of_length_seven h7
  refine ⟨?_, ?_, ?_⟩
  · rw [hc]
    simp [List.length_take, List.length_drop, h7]
  · rw [hc]
    rfl
  · intro t ht
    obtain ⟨parts, hlen, hperm, hflat⟩ := ht
    rw [hc] at hlen hperm
    rcases parts with _ | ⟨p1, _ | ⟨p2, _ | ⟨p3, rest⟩⟩⟩ <;>
      simp only [List.length_cons, List.length_nil] at hlen <;> try omega
    have hrest : rest = [] := List.eq_nil_of_length_eq_zero (by omega)
    subst hrest
    refine ⟨p1, p2, p3, ?_, ?_, ?_, ?_⟩
    · rw [hflat]
      simp
    · simpa using hperm 0 (by simp) (by simp)
    · simpa using hperm 1 (by simp) (by simp)
    · simpa using hperm 2 (by simp) (by simp)

/-- Witness for C3: the seven concrete accessions under the all-failing
environment: three windows of sizes 3, 3, 1 and the trace decomposition. -/
theorem claim_C3_windows_witness :
    (chunk3 sevenAccs).map List.length = [3, 3, 1] ∧
    (chunk3 sevenAccs).length = 3 ∧
    ∀ t, PossibleTrace envAllFail ".".data 3 sevenAccs t →
      ∃ t1 t2 t3,
        t = t1 ++ t2 ++ t3 ∧
        List.Perm t1 (windowRequests envAllFail ".".data 3
          (sevenAccs.take 3)) ∧
        List.Perm t2 (windowRequests envAllFail ".".data 3
          ((sevenAccs.drop 3).take 3)) ∧
        List.Perm t3 (windowRequests envAllFail ".".data 3
          (sevenAccs.drop 6)) :=
  claim_C3_windows envAllFail ".".data 3 sevenAccs (by decide)
